import Mathlib

/-!
Formal model of the `data_loading` package (data_loader.py, augmenter.py,
data_manager.py) as a shallow embedding, together with theorems settling the
specification claims about it.

Python dicts are modelled as association lists, Python `None` as `Option.none`,
machine integers as `Nat`/`Int`, and the coordinator loop of the parallel
augmenter as a fueled step function producing an explicit event trace.
-/

/-- Association-list model of one loaded sample: field name mapped to a value
(values are modelled as `Nat`). -/
abbrev Sample := List (String × Nat)

/-- Association-list model of the assembled batch dict: field name mapped to the
list of stacked values. -/
abbrev Batch := List (String × List Nat)

/-- Helper: Python dict assignment `d[k] = v` on an association list. -/
def setKey (d : Batch) (k : String) (v : List Nat) : Batch :=
  match d with
  | [] => [(k, v)]
  | (k', v') :: rest => if k' = k then (k, v) :: rest else (k', v') :: setKey rest k v

/-- Embedding of the inner loop of `DataLoader.__call__` (data_loader.py lines
33-38) for one sample `_result_dict`:

    for key, val in _result_dict.items():
        if key in data_dict.keys():
            _result_dict[key].append(val)
        else:
            _result_dict[key] = [val]

Both branches write into the per-sample dict `_result_dict`; `data_dict` is only
read by the membership test.  The first branch is dead whenever `data_dict` is
empty (which it always is in `DataLoader.__call__`), and in that dead branch the
sample dict is left as the accumulator; the live branch rebinds the key to the
one-element list `[val]`.  The function returns the mutated `_result_dict`. -/
def dlInnerLoop (data_dict : Batch) (rd : Sample) : Batch :=
  rd.foldl
    (fun acc kv =>
      if (data_dict.lookup kv.1).isSome then acc
      else setKey acc kv.1 [kv.2])
    []

/-- Embedding of `DataLoader.__call__` (data_loader.py lines 26-44).  The method
gathers the indexed samples, runs the inner loop above (whose writes all target
the per-sample dicts, so `data_dict` never acquires a key), runs the
list-to-array conversion loop over the (empty) `data_dict`, and ends with a bare
`return`, i.e. it produces Python `None`, modelled as `Option.none`.  A missing
index is modelled as the empty sample, mirroring that only the `return` value is
observable here. -/
def dataLoaderCall (dataset : List Sample) (indices : List Nat) : Option Batch :=
  let data : List Sample := indices.map (fun idx => dataset.getD idx [])
  let data_dict : Batch := []
  let _mutatedSampleDicts : List Batch := data.map (fun rd => dlInnerLoop data_dict rd)
  let _data_dict : Batch := data_dict.map (fun kv => (kv.1, kv.2))
  none

/-- Error kind raised by the `process_id` setter (`AttributeError` in the
source, named `ProcessIdentityReuse` by the specification). -/
inductive LoaderErr
  | processIdentityReuse
  deriving DecidableEq

/-- Initial value of `DataLoader._process_id` (data_loader.py line 8): Python
`None`, i.e. the field has never been set. -/
def processIdInit : Option Nat := none

/-- Embedding of the `process_id` setter (data_loader.py lines 52-57): if the
field is already set it raises (returning the state unchanged together with the
error, since Python raises before assigning); otherwise it stores the new id. -/
def setProcessId (s : Option Nat) (newId : Nat) : Option Nat × Option LoaderErr :=
  match s with
  | some v => (some v, some LoaderErr.processIdentityReuse)
  | none => (some newId, none)

/-- Embedding of the `process_id` getter (data_loader.py lines 46-50): returns 0
while the field is unset, else the stored id. -/
def getProcessId : Option Nat → Nat
  | none => 0
  | some v => v

/-- Embedding of `DataManager.n_batches` (data_manager.py lines 402-426):
asserts `n_samples > 0` (modelled as `none` on failure), divides, and adds one
batch iff there is a truncated remainder and `drop_last` is unset
(`int(bool(truncated_batch) and not self.drop_last)`).  A zero batch size would
raise `ZeroDivisionError` in Python and is likewise modelled as `none`. -/
def nBatches (nSamples batchSize : Nat) (dropLast : Bool) : Option Nat :=
  if 0 < nSamples then
    if 0 < batchSize then
      some (nSamples / batchSize +
        (if nSamples % batchSize ≠ 0 && !dropLast then 1 else 0))
    else none
  else none

/-- Model of an element-level sampler instance (an `AbstractSampler` that is not
a `BatchSampler`); only its identity matters for the wrapping claim. -/
structure ElementSamplerModel where
  numSamples : Nat
  deriving DecidableEq

/-- Model of a `BatchSampler` instance: it wraps an element sampler and carries
a group size and a `drop_last` flag. -/
structure BatchSamplerModel where
  wrappedSize : Nat
  batchSize : Nat
  dropLast : Bool
  deriving DecidableEq

/-- The possible `sampler` arguments to `AbstractAugmenter.__init__`, by the
`isinstance` tests of augmenter.py lines 113-117. -/
inductive SamplerArg
  | batchInst (b : BatchSamplerModel)
  | elementInst (e : ElementSamplerModel)
  | other
  deriving DecidableEq

/-- What `AbstractAugmenter.__init__` can end up storing in `self._sampler`:
either a `BatchSampler` instance, or the bare `BatchSampler` class object
(augmenter.py line 115 assigns the class itself: `sampler = BatchSampler`). -/
inductive StoredSampler
  | inst (b : BatchSamplerModel)
  | classObj
  deriving DecidableEq

/-- Embedding of the sampler resolution in `AbstractAugmenter.__init__`
(augmenter.py lines 113-119):

    if not isinstance(sampler, BatchSampler):
        if isinstance(sampler, AbstractSampler):
            sampler = BatchSampler
        else:
            raise ValueError(...)
    self._sampler = sampler

For an element-level sampler the stored object is the `BatchSampler` class
itself, not an instance. -/
def resolveSampler : SamplerArg → Except String StoredSampler
  | SamplerArg.batchInst b => Except.ok (StoredSampler.inst b)
  | SamplerArg.elementInst _ => Except.ok StoredSampler.classObj
  | SamplerArg.other => Except.error "Invalid Sampler given"

/-- Embedding of the loop of `_ParallelAugmenter._shutdown_processes`
(augmenter.py lines 258-276).  Python's `zip` iterates the three bookkeeping
lists by position while the loop body pops their last elements, so iteration `i`
executes only while `i` is still smaller than the already-shrunken length.  The
three lists always have equal length and are popped in lockstep, so a single
list of worker slot ids represents them.  The accumulator records, in order, the
workers that were actually sent the sentinel, joined and closed; the second
component of the result is the bookkeeping list left behind. -/
def shutdownLoop (procs : List Nat) (i : Nat) (acc : List Nat) : List Nat × List Nat :=
  if h : i < procs.length then
    shutdownLoop procs.dropLast (i + 1) (acc ++ [procs.get ⟨i, h⟩])
  else (acc, procs)
termination_by procs.length
decreasing_by
  simp only [List.length_dropLast]
  omega

/-- Embedding of `_ParallelAugmenter._shutdown_processes` (augmenter.py lines
247-281) restricted to its loop over the worker bookkeeping lists: returns the
ids of the workers that were processed (sentinel sent, joined, closed) and the
entries still left in the bookkeeping lists afterwards. -/
def shutdownProcesses (procs : List Nat) : List Nat × List Nat :=
  shutdownLoop procs 0 []

/-- Messages sent over an index pipe by the coordinator.  The pre-fill loop of
`_ParallelAugmenter.__iter__` passes a list of index groups to
`_enqueue_indices`, so each sent item is a whole group; the steady-state branch
passes one index group itself, so each sent item is a bare index. -/
inductive Msg
  | grp (g : List Nat)
  | idx (i : Nat)
  deriving DecidableEq

/-- Observable events of one parallel pass of the coordinator. -/
inductive Ev
  | checkAbort (value : Bool)
  | send (slot : Nat) (m : Msg)
  | recvd (slot : Nat)
  | yielded
  | raised
  | stopped
  | hung
  deriving DecidableEq

/-- Coordinator-side state of `_ParallelAugmenter`: the worker count, the two
independent cyclic cursors `_index_pipe_counter` and `_data_pipe_counter`, and
the per-slot pending counters `_data_queued` (Python ints, hence `Int`). -/
structure CoordState where
  numProcesses : Nat
  indexPipeCounter : Nat
  dataPipeCounter : Nat
  dataQueued : List Int

/-- Embedding of the `_next_index_pipe` property (augmenter.py lines 283-293):
returns the current cursor value and advances the cursor modulo the number of
processes. -/
def nextIndexPipe (st : CoordState) : Nat × CoordState :=
  (st.indexPipeCounter,
   { st with indexPipeCounter := (st.indexPipeCounter + 1) % st.numProcesses })

/-- Embedding of the `_next_data_pipe` property (augmenter.py lines 295-305). -/
def nextDataPipe (st : CoordState) : Nat × CoordState :=
  (st.dataPipeCounter,
   { st with dataPipeCounter := (st.dataPipeCounter + 1) % st.numProcesses })

/-- Pointwise update of a list at an index (Python `l[i] += …`); out-of-range
indices leave the list unchanged (they do not occur in well-formed states). -/
def updateAt : List Int → Nat → (Int → Int) → List Int
  | [], _, _ => []
  | a :: l, 0, f => f a :: l
  | a :: l, n + 1, f => a :: updateAt l n f

/-- Embedding of `_ParallelAugmenter._enqueue_indices` (augmenter.py lines
307-326): for each item of its argument, advance the index cursor, increment
that slot's pending counter, and send the item to that slot.  The element type
of the traversed argument is whatever the caller passed, which the `Msg` type
records. -/
def enqueueIndices (st : CoordState) : List Msg → CoordState × List Ev
  | [] => (st, [])
  | m :: ms =>
    let ctr := (nextIndexPipe st).1
    let st' := (nextIndexPipe st).2
    let st'' := { st' with dataQueued := updateAt st'.dataQueued ctr (· + 1) }
    let rest := enqueueIndices st'' ms
    (rest.1, Ev.send ctr m :: rest.2)

/-- Embedding of the scan loop of `_receive_data` (augmenter.py lines 333-338):
`_data_pipe = self._next_data_pipe` followed by
`while not self._data_queued[_data_pipe]: _data_pipe = self._next_data_pipe`.
The scan is given fuel; `numProcesses` probes reach every slot, so the fuel is
irrelevant whenever some counter is nonzero.  Returns the selected slot and the
state after the cursor advances. -/
def findQueued (st : CoordState) : Nat → Option (Nat × CoordState)
  | 0 => none
  | fuel + 1 =>
    let ctr := (nextDataPipe st).1
    let st' := (nextDataPipe st).2
    if st'.dataQueued.getD ctr 0 ≠ 0 then some (ctr, st')
    else findQueued st' fuel

/-- Embedding of `_ParallelAugmenter._receive_data` (augmenter.py lines
328-345): scan for a slot with a nonzero pending counter, receive from it and
decrement its counter.  `none` models the nonterminating scan that the real
code would perform if every counter were zero. -/
def receiveData (st : CoordState) : Option (Nat × CoordState) :=
  match findQueued st st.numProcesses with
  | none => none
  | some (slot, st') =>
    some (slot, { st' with dataQueued := updateAt st'.dataQueued slot (· - 1) })

/-- Embedding of the sampling step inside the while-loop of
`_ParallelAugmenter.__iter__` (augmenter.py lines 379-384): if the sampler is
not yet exhausted, draw the next index group and pass the group itself to
`_enqueue_indices`, which iterates over it and so sends its member indices one
by one; on `StopIteration` just record exhaustion.  Returns the updated
`all_sampled` flag, the remaining groups, the updated state and the emitted
send events. -/
def iterStep (st : CoordState) (allSampled : Bool) (remaining : List (List Nat)) :
    Bool × List (List Nat) × CoordState × List Ev :=
  if allSampled then (true, remaining, st, [])
  else
    match remaining with
    | [] => (true, [], st, [])
    | g :: rest =>
      (false, rest, (enqueueIndices st (g.map Msg.idx)).1,
       (enqueueIndices st (g.map Msg.idx)).2)

/-- Embedding of the while-loop of `_ParallelAugmenter.__iter__` (augmenter.py
lines 370-390), producing the event trace of the remaining pass.  `flags k` is
the value the shared abort flag holds when the k-th check (counting from 0 over
the whole pass) reads it, which models the flag being set asynchronously by a
worker.  Each iteration: read the abort flag once and raise if it is set; else
run the sampling step; then either receive-and-yield one batch if any pending
counter is truthy, or break. -/
def runIter (flags : Nat → Bool) :
    Nat → Nat → Bool → List (List Nat) → CoordState → List Ev
  | 0, _, _, _, _ => []
  | fuel + 1, k, allSampled, remaining, st =>
    if flags k then [Ev.checkAbort true, Ev.raised]
    else
      let s := iterStep st allSampled remaining
      if s.2.2.1.dataQueued.any (· ≠ 0) then
        match receiveData s.2.2.1 with
        | none => Ev.checkAbort false :: s.2.2.2 ++ [Ev.hung]
        | some (slot, st'') =>
          Ev.checkAbort false :: s.2.2.2 ++ Ev.recvd slot :: Ev.yielded ::
            runIter flags fuel (k + 1) s.1 s.2.1 st''
      else
        Ev.checkAbort false :: s.2.2.2 ++ [Ev.stopped]

/-- Fresh pool state: cursors zero, all pending counters zero
(`_start_processes`, augmenter.py lines 212-245). -/
def initState (n : Nat) : CoordState := ⟨n, 0, 0, List.replicate n 0⟩

/-- Embedding of `_ParallelAugmenter.__iter__` (augmenter.py lines 347-400) up
to the trace of coordinator events.  `_start_processes` initializes both
cursors to 0 and every pending counter to 0; line 350 then performs one
discarded cursor advance (`_index_pipe = self._next_index_pipe`, the variable
is never used); the pre-fill draws up to `2 * num_processes` groups from the
sampler (lines 360-364, setting `all_sampled` only if the sampler ran out) and
passes the list of groups to `_enqueue_indices`, so each pre-fill send carries
a whole group; then the while-loop runs. -/
def parallelIter (n : Nat) (groups : List (List Nat)) (flags : Nat → Bool)
    (fuel : Nat) : List Ev :=
  let st1 := (nextIndexPipe (initState n)).2
  let pre := groups.take (2 * n)
  let rest := groups.drop (2 * n)
  let allSampled := decide (groups.length < 2 * n)
  let r := enqueueIndices st1 (pre.map Msg.grp)
  r.2 ++ runIter flags fuel 0 allSampled rest r.1

/-- Slots of the send events of a trace, in order. -/
def sendSlots (evs : List Ev) : List Nat :=
  evs.filterMap fun e =>
    match e with
    | Ev.send s _ => some s
    | _ => none

/-- Messages of the send events of a trace, in order. -/
def sentMsgs (evs : List Ev) : List Msg :=
  evs.filterMap fun e =>
    match e with
    | Ev.send _ m => some m
    | _ => none

/-- An always-false abort flag (no worker ever fails). -/
def flagsOff : Nat → Bool := fun _ => false

/-- An abort flag that is set from the start of the pass. -/
def flagsOn : Nat → Bool := fun _ => true

/-- A list of slot values is a cyclic run modulo `n` starting at `c`. -/
def SlotsFrom (n c : Nat) (l : List Nat) : Prop :=
  ∀ i, i < l.length → l.getD i 0 = (c + i) % n

/-- Counts the events of a trace satisfying a predicate. -/
def countEvs (p : Ev → Bool) (evs : List Ev) : Nat := (evs.filter p).length

/-- Recognizes an abort-flag check event. -/
def isCheck : Ev → Bool
  | Ev.checkAbort _ => true
  | _ => false

/-- Recognizes a yield event. -/
def isYield : Ev → Bool
  | Ev.yielded => true
  | _ => false

/-- A trace that ended by raising or by exhausting the pass (as opposed to a
truncated, out-of-fuel trace). -/
def Terminated (evs : List Ev) : Prop :=
  evs.getLast? = some Ev.raised ∨ evs.getLast? = some Ev.stopped

/-- The two coordinator operations that touch the pending counters during a
pass: dispatching one item (`_enqueue_indices` with a one-element argument) and
collecting one batch (`_receive_data`). -/
inductive PoolOp
  | enq (m : Msg)
  | recv
  deriving DecidableEq

/-- Applies one coordinator operation to the state.  A receive with every
counter zero never terminates in the source and leaves the counters untouched,
so it is modelled as the identity. -/
def applyOp (st : CoordState) : PoolOp → CoordState
  | PoolOp.enq m => (enqueueIndices st [m]).1
  | PoolOp.recv =>
    match receiveData st with
    | some (_, st') => st'
    | none => st

/-- Applies a sequence of coordinator operations. -/
def applyOps (st : CoordState) (ops : List PoolOp) : CoordState :=
  ops.foldl applyOp st

/-! ### Helper lemmas about the embedded operations -/

lemma mem_updateAt {l : List Int} {i : Nat} {f : Int → Int} {x : Int}
    (hx : x ∈ updateAt l i f) :
    x ∈ l ∨ ∃ h : i < l.length, x = f (l.get ⟨i, h⟩) := by
  induction l generalizing i with
  | nil => simp [updateAt] at hx
  | cons a t ih =>
    cases i with
    | zero =>
      simp only [updateAt, List.mem_cons] at hx
      rcases hx with h | h
      · exact Or.inr ⟨by simp, by simp [h]⟩
      · exact Or.inl (List.mem_cons_of_mem _ h)
    | succ j =>
      simp only [updateAt, List.mem_cons] at hx
      rcases hx with h | h
      · exact Or.inl (by simp [h])
      · rcases ih h with h' | ⟨hj, hv⟩
        · exact Or.inl (List.mem_cons_of_mem _ h')
        · exact Or.inr ⟨by simpa using Nat.succ_lt_succ hj, by simpa using hv⟩

lemma slotsFrom_nil (n c : Nat) : SlotsFrom n c [] := by
  intro i hi
  simp at hi

lemma slotsFrom_cons {n c : Nat} {l : List Nat} (hc : c < n)
    (h : SlotsFrom n ((c + 1) % n) l) : SlotsFrom n c (c :: l) := by
  intro i hi
  cases i with
  | zero => simpa using (Nat.mod_eq_of_lt hc).symm
  | succ j =>
    have hj : j < l.length := by simpa using hi
    have hh := h j hj
    simp only [List.getD_cons_succ]
    rw [hh, Nat.mod_add_mod]
    congr 1
    omega

lemma slotsFrom_head {n c : Nat} {a : Nat} {l : List Nat}
    (h : SlotsFrom n c (a :: l)) : a = c % n := by
  have := h 0 (by simp)
  simpa using this

lemma slotsFrom_tail {n c : Nat} {a : Nat} {l : List Nat}
    (h : SlotsFrom n c (a :: l)) : SlotsFrom n ((c + 1) % n) l := by
  intro i hi
  have hh := h (i + 1) (by simpa using Nat.succ_lt_succ hi)
  simp only [List.getD_cons_succ] at hh
  rw [hh, Nat.mod_add_mod]
  congr 1
  omega

lemma slotsFrom_append {n : Nat} {l1 l2 : List Nat} :
    ∀ {c : Nat}, c < n → SlotsFrom n c l1 →
      SlotsFrom n ((c + l1.length) % n) l2 → SlotsFrom n c (l1 ++ l2) := by
  induction l1 with
  | nil =>
    intro c hc _ h2
    simpa [Nat.mod_eq_of_lt hc] using h2
  | cons a t ih =>
    intro c hc h1 h2
    have hn : 0 < n := Nat.lt_of_le_of_lt (Nat.zero_le _) hc
    have ha : a = c := by rw [slotsFrom_head h1, Nat.mod_eq_of_lt hc]
    have hc' : (c + 1) % n < n := Nat.mod_lt _ hn
    have h2' : SlotsFrom n (((c + 1) % n + t.length) % n) l2 := by
      have : ((c + 1) % n + t.length) % n = (c + (a :: t).length) % n := by
        rw [Nat.mod_add_mod]
        congr 1
        simp
        omega
      rw [this]
      exact h2
    have := ih hc' (slotsFrom_tail h1) h2'
    subst ha
    exact slotsFrom_cons hc this

lemma enqueueIndices_events (ms : List Msg) :
    ∀ st : CoordState, ∀ e ∈ (enqueueIndices st ms).2, ∃ s m, e = Ev.send s m := by
  induction ms with
  | nil => intro st e he; simp [enqueueIndices] at he
  | cons m ms ih =>
    intro st e he
    simp only [enqueueIndices, List.mem_cons] at he
    rcases he with h | h
    · exact ⟨_, _, h⟩
    · exact ih _ e h

lemma enqueueIndices_slots (ms : List Msg) :
    ∀ st : CoordState, st.indexPipeCounter < st.numProcesses →
      (enqueueIndices st ms).1.numProcesses = st.numProcesses ∧
      (enqueueIndices st ms).1.indexPipeCounter
        = (st.indexPipeCounter + ms.length) % st.numProcesses ∧
      (enqueueIndices st ms).1.indexPipeCounter < st.numProcesses ∧
      (sendSlots (enqueueIndices st ms).2).length = ms.length ∧
      SlotsFrom st.numProcesses st.indexPipeCounter (sendSlots (enqueueIndices st ms).2) := by
  induction ms with
  | nil =>
    intro st hc
    refine ⟨rfl, ?_, ?_, rfl, slotsFrom_nil _ _⟩
    · simpa using (Nat.mod_eq_of_lt hc).symm
    · simpa using hc
  | cons m ms ih =>
    intro st hc
    have hn : 0 < st.numProcesses := Nat.lt_of_le_of_lt (Nat.zero_le _) hc
    set st'' : CoordState :=
      { st with
        indexPipeCounter := (st.indexPipeCounter + 1) % st.numProcesses,
        dataQueued := updateAt st.dataQueued st.indexPipeCounter (· + 1) } with hst''
    have hunfold :
        enqueueIndices st (m :: ms)
          = ((enqueueIndices st'' ms).1,
             Ev.send st.indexPipeCounter m :: (enqueueIndices st'' ms).2) := by
      simp [enqueueIndices, nextIndexPipe, hst'']
    have hc'' : st''.indexPipeCounter < st''.numProcesses := by
      simp only [hst'']
      exact Nat.mod_lt _ hn
    obtain ⟨hN, hI, hIlt, hL, hS⟩ := ih st'' hc''
    have hNP : st''.numProcesses = st.numProcesses := rfl
    refine ⟨by rw [hunfold]; exact hN, ?_, ?_, ?_, ?_⟩
    · rw [hunfold]
      simp only [hI, hst'']
      rw [Nat.mod_add_mod]
      congr 1
      simp
      omega
    · rw [hunfold]
      simpa [hNP] using hIlt
    · rw [hunfold]
      simp only [sendSlots, List.filterMap_cons]
      simpa [sendSlots] using hL
    · rw [hunfold]
      simp only [sendSlots, List.filterMap_cons]
      exact slotsFrom_cons hc (by simpa [sendSlots, hst''] using hS)

lemma findQueued_spec (fuel : Nat) :
    ∀ (st : CoordState) (s : Nat) (st' : CoordState),
      findQueued st fuel = some (s, st') →
      st'.numProcesses = st.numProcesses ∧
      st'.indexPipeCounter = st.indexPipeCounter ∧
      st'.dataQueued = st.dataQueued ∧
      st.dataQueued.getD s 0 ≠ 0 := by
  induction fuel with
  | zero => intro st s st' h; simp [findQueued] at h
  | succ fuel ih =>
    intro st s st' h
    rw [findQueued] at h
    by_cases hq : ((nextDataPipe st).2.dataQueued.getD (nextDataPipe st).1 0) ≠ 0
    · rw [if_pos hq] at h
      obtain ⟨hs, hst⟩ := Prod.mk.injEq .. ▸ (Option.some.injEq .. ▸ h :)
      subst hs
      subst hst
      exact ⟨rfl, rfl, rfl, by simpa [nextDataPipe] using hq⟩
    · rw [if_neg hq] at h
      have := ih _ _ _ h
      simpa [nextDataPipe] using this

lemma receiveData_spec (st : CoordState) (s : Nat) (st' : CoordState)
    (h : receiveData st = some (s, st')) :
    st'.numProcesses = st.numProcesses ∧
    st'.indexPipeCounter = st.indexPipeCounter ∧
    st'.dataQueued = updateAt st.dataQueued s (· - 1) ∧
    st.dataQueued.getD s 0 ≠ 0 := by
  rw [receiveData] at h
  rcases hf : findQueued st st.numProcesses with _ | ⟨s', stf⟩
  · rw [hf] at h; simp at h
  · rw [hf] at h
    simp only [Option.some.injEq, Prod.mk.injEq] at h
    obtain ⟨hs, hst⟩ := h
    subst hs
    subst hst
    obtain ⟨hN, hI, hQ, hnz⟩ := findQueued_spec _ _ _ _ hf
    exact ⟨hN, hI, by rw [hQ], hnz⟩

lemma iterStep_events (st : CoordState) (aS : Bool) (rem : List (List Nat)) :
    ∀ e ∈ (iterStep st aS rem).2.2.2, ∃ s m, e = Ev.send s m := by
  cases aS with
  | true => intro e he; simp [iterStep] at he
  | false =>
    cases rem with
    | nil => intro e he; simp [iterStep] at he
    | cons g rest =>
      intro e he
      simp only [iterStep] at he
      exact enqueueIndices_events _ _ e he

lemma iterStep_slots (st : CoordState) (aS : Bool) (rem : List (List Nat))
    (hc : st.indexPipeCounter < st.numProcesses) :
    (iterStep st aS rem).2.2.1.numProcesses = st.numProcesses ∧
    (iterStep st aS rem).2.2.1.indexPipeCounter
      = (st.indexPipeCounter + (sendSlots (iterStep st aS rem).2.2.2).length)
          % st.numProcesses ∧
    (iterStep st aS rem).2.2.1.indexPipeCounter < st.numProcesses ∧
    SlotsFrom st.numProcesses st.indexPipeCounter
      (sendSlots (iterStep st aS rem).2.2.2) := by
  cases aS with
  | true =>
    refine ⟨rfl, ?_, hc, by simp [iterStep, sendSlots, slotsFrom_nil]⟩
    simp [iterStep, sendSlots, Nat.mod_eq_of_lt hc]
  | false =>
    cases rem with
    | nil =>
      refine ⟨rfl, ?_, hc, by simp [iterStep, sendSlots, slotsFrom_nil]⟩
      simp [iterStep, sendSlots, Nat.mod_eq_of_lt hc]
    | cons g rest =>
      obtain ⟨hN, hI, hIlt, hL, hS⟩ := enqueueIndices_slots (g.map Msg.idx) st hc
      refine ⟨by simpa [iterStep] using hN, ?_, ?_, ?_⟩
      · simp only [iterStep, Bool.false_eq_true, if_false]
        rw [hI, hL]
      · simpa [iterStep] using hIlt
      · simpa [iterStep] using hS

lemma sendSlots_append (l1 l2 : List Ev) :
    sendSlots (l1 ++ l2) = sendSlots l1 ++ sendSlots l2 := by
  simp [sendSlots]

lemma sendSlots_of_sends {evs : List Ev}
    (h : ∀ e ∈ evs, ∃ s m, e = Ev.send s m) :
    (sendSlots evs).length = evs.length := by
  induction evs with
  | nil => simp [sendSlots]
  | cons e t ih =>
    obtain ⟨s, m, he⟩ := h e (by simp)
    subst he
    simp only [sendSlots, List.filterMap_cons]
    simpa [sendSlots] using ih (fun e' he' => h e' (List.mem_cons_of_mem _ he'))

lemma runIter_slots (flags : Nat → Bool) (fuel : Nat) :
    ∀ (k : Nat) (aS : Bool) (rem : List (List Nat)) (st : CoordState),
      st.indexPipeCounter < st.numProcesses →
      SlotsFrom st.numProcesses st.indexPipeCounter
        (sendSlots (runIter flags fuel k aS rem st)) := by
  induction fuel with
  | zero =>
    intro k aS rem st _
    simp [runIter, sendSlots, slotsFrom_nil]
  | succ fuel ih =>
    intro k aS rem st hc
    rw [runIter]
    by_cases hf : flags k
    · rw [if_pos hf]
      simp [sendSlots, slotsFrom_nil]
    · rw [if_neg hf]
      obtain ⟨hN, hI, hIlt, hS⟩ := iterStep_slots st aS rem hc
      by_cases hq : (iterStep st aS rem).2.2.1.dataQueued.any (· ≠ 0)
      · rw [if_pos hq]
        rcases hr : receiveData (iterStep st aS rem).2.2.1 with _ | ⟨slot, st''⟩
        · simp only [sendSlots, List.filterMap_cons, List.filterMap_append]
          simpa [sendSlots] using (by simpa [sendSlots] using hS :)
        · obtain ⟨hN2, hI2, _, _⟩ := receiveData_spec _ _ _ hr
          have hc'' : st''.indexPipeCounter < st''.numProcesses := by
            rw [hN2, hI2, hN]
            exact hIlt
          have hrec := ih (k + 1) (iterStep st aS rem).1 (iterStep st aS rem).2.1 st'' hc''
          rw [hI2, hN2, hN, hI] at hrec
          simp only [sendSlots, List.filterMap_cons, List.filterMap_append]
          exact slotsFrom_append hc (by simpa [sendSlots] using hS)
            (by simpa [sendSlots] using hrec)
      · rw [if_neg hq]
        simp only [sendSlots, List.filterMap_cons, List.filterMap_append, List.filterMap_nil,
          List.append_nil]
        simpa [sendSlots] using hS

lemma countEvs_append (p : Ev → Bool) (l1 l2 : List Ev) :
    countEvs p (l1 ++ l2) = countEvs p l1 + countEvs p l2 := by
  simp [countEvs]

lemma countEvs_sends {evs : List Ev}
    (h : ∀ e ∈ evs, ∃ s m, e = Ev.send s m) :
    countEvs isCheck evs = 0 ∧ countEvs isYield evs = 0 := by
  constructor <;>
  · simp only [countEvs, List.length_eq_zero]
    rw [List.filter_eq_nil_iff]
    intro e he
    obtain ⟨s, m, rfl⟩ := h e he
    simp [isCheck, isYield]

lemma runIter_succ_raise (flags : Nat → Bool) (fuel k : Nat) (aS : Bool)
    (rem : List (List Nat)) (st : CoordState) (hf : flags k = true) :
    runIter flags (fuel + 1) k aS rem st = [Ev.checkAbort true, Ev.raised] := by
  rw [runIter, if_pos hf]

lemma runIter_succ_some (flags : Nat → Bool) (fuel k : Nat) (aS : Bool)
    (rem : List (List Nat)) (st : CoordState) (slot : Nat) (st'' : CoordState)
    (hf : flags k = false)
    (hq : (iterStep st aS rem).2.2.1.dataQueued.any (· ≠ 0))
    (hr : receiveData (iterStep st aS rem).2.2.1 = some (slot, st'')) :
    runIter flags (fuel + 1) k aS rem st
      = (Ev.checkAbort false :: (iterStep st aS rem).2.2.2 ++ [Ev.recvd slot, Ev.yielded])
        ++ runIter flags fuel (k + 1) (iterStep st aS rem).1 (iterStep st aS rem).2.1 st'' := by
  rw [runIter]
  simp only [hf, Bool.false_eq_true, if_false, hq, if_true, hr]
  simp

lemma runIter_succ_none (flags : Nat → Bool) (fuel k : Nat) (aS : Bool)
    (rem : List (List Nat)) (st : CoordState)
    (hf : flags k = false)
    (hq : (iterStep st aS rem).2.2.1.dataQueued.any (· ≠ 0))
    (hr : receiveData (iterStep st aS rem).2.2.1 = none) :
    runIter flags (fuel + 1) k aS rem st
      = (Ev.checkAbort false :: (iterStep st aS rem).2.2.2) ++ [Ev.hung] := by
  rw [runIter]
  simp only [hf, Bool.false_eq_true, if_false, hq, if_true, hr]

lemma runIter_succ_stop (flags : Nat → Bool) (fuel k : Nat) (aS : Bool)
    (rem : List (List Nat)) (st : CoordState)
    (hf : flags k = false)
    (hq : ¬ (iterStep st aS rem).2.2.1.dataQueued.any (· ≠ 0)) :
    runIter flags (fuel + 1) k aS rem st
      = (Ev.checkAbort false :: (iterStep st aS rem).2.2.2) ++ [Ev.stopped] := by
  rw [runIter]
  simp only [hf, Bool.false_eq_true, if_false]
  rw [if_neg hq]

lemma runIter_counts (flags : Nat → Bool) (fuel : Nat) :
    ∀ (k : Nat) (aS : Bool) (rem : List (List Nat)) (st : CoordState),
      Terminated (runIter flags fuel k aS rem st) →
      countEvs isCheck (runIter flags fuel k aS rem st)
        = countEvs isYield (runIter flags fuel k aS rem st) + 1 := by
  induction fuel with
  | zero =>
    intro k aS rem st ht
    rcases ht with h | h <;> simp [runIter] at h
  | succ fuel ih =>
    intro k aS rem st ht
    obtain ⟨hc0, hy0⟩ := countEvs_sends (iterStep_events st aS rem)
    by_cases hf : flags k
    · rw [runIter_succ_raise flags fuel k aS rem st hf]
      simp [countEvs, isCheck, isYield]
    · have hf' : flags k = false := by simpa using hf
      by_cases hq : (iterStep st aS rem).2.2.1.dataQueued.any (· ≠ 0)
      · rcases hr : receiveData (iterStep st aS rem).2.2.1 with _ | ⟨slot, st''⟩
        · rw [runIter_succ_none flags fuel k aS rem st hf' hq hr] at ht
          exfalso
          rcases ht with h | h <;> rw [List.getLast?_concat] at h <;> simp at h
        · rw [runIter_succ_some flags fuel k aS rem st slot st'' hf' hq hr] at ht ⊢
          have htr : Terminated (runIter flags fuel (k + 1) (iterStep st aS rem).1
              (iterStep st aS rem).2.1 st'') := by
            by_cases hnil : runIter flags fuel (k + 1) (iterStep st aS rem).1
                (iterStep st aS rem).2.1 st'' = []
            · exfalso
              rw [hnil, List.append_nil] at ht
              rcases ht with h | h <;>
              · rw [show Ev.checkAbort false :: (iterStep st aS rem).2.2.2
                      ++ [Ev.recvd slot, Ev.yielded]
                    = (Ev.checkAbort false :: (iterStep st aS rem).2.2.2
                      ++ [Ev.recvd slot]) ++ [Ev.yielded] by simp,
                  List.getLast?_concat] at h
                simp at h
            · rcases ht with h | h <;>
                rw [List.getLast?_append_of_ne_nil _ hnil] at h
              · exact Or.inl h
              · exact Or.inr h
          have hcount := ih (k + 1) (iterStep st aS rem).1 (iterStep st aS rem).2.1 st'' htr
          rw [show (Ev.checkAbort false :: (iterStep st aS rem).2.2.2
                ++ [Ev.recvd slot, Ev.yielded])
                ++ runIter flags fuel (k + 1) (iterStep st aS rem).1
                    (iterStep st aS rem).2.1 st''
              = [Ev.checkAbort false] ++ (iterStep st aS rem).2.2.2
                ++ ([Ev.recvd slot, Ev.yielded]
                  ++ runIter flags fuel (k + 1) (iterStep st aS rem).1
                      (iterStep st aS rem).2.1 st'') by simp]
          simp only [countEvs_append, hc0, hy0, hcount]
          simp [countEvs, isCheck, isYield]
          omega
      · rw [runIter_succ_stop flags fuel k aS rem st hf' hq]
        rw [show (Ev.checkAbort false :: (iterStep st aS rem).2.2.2) ++ [Ev.stopped]
            = [Ev.checkAbort false] ++ (iterStep st aS rem).2.2.2 ++ [Ev.stopped] by simp]
        simp only [countEvs_append, hc0, hy0]
        simp [countEvs, isCheck, isYield]

lemma runIter_raised (flags : Nat → Bool) (fuel : Nat) :
    ∀ (k : Nat) (aS : Bool) (rem : List (List Nat)) (st : CoordState),
      Ev.raised ∈ runIter flags fuel k aS rem st →
      ∃ pre, runIter flags fuel k aS rem st = pre ++ [Ev.checkAbort true, Ev.raised] := by
  induction fuel with
  | zero => intro k aS rem st h; simp [runIter] at h
  | succ fuel ih =>
    intro k aS rem st h
    have hnotsend : Ev.raised ∉ (iterStep st aS rem).2.2.2 := by
      intro hmem
      obtain ⟨s, m, habs⟩ := iterStep_events st aS rem _ hmem
      cases habs
    by_cases hf : flags k
    · exact ⟨[], runIter_succ_raise flags fuel k aS rem st hf⟩
    · have hf' : flags k = false := by simpa using hf
      by_cases hq : (iterStep st aS rem).2.2.1.dataQueued.any (· ≠ 0)
      · rcases hr : receiveData (iterStep st aS rem).2.2.1 with _ | ⟨slot, st''⟩
        · rw [runIter_succ_none flags fuel k aS rem st hf' hq hr] at h
          exfalso
          simp at h
          exact hnotsend h
        · rw [runIter_succ_some flags fuel k aS rem st slot st'' hf' hq hr] at h ⊢
          simp only [List.mem_append] at h
          have hmem : Ev.raised ∈ runIter flags fuel (k + 1) (iterStep st aS rem).1
              (iterStep st aS rem).2.1 st'' := by
            rcases h with h | h
            · exfalso
              simp at h
              exact hnotsend h
            · exact h
          obtain ⟨pre', hpre'⟩ := ih _ _ _ _ hmem
          refine ⟨(Ev.checkAbort false :: (iterStep st aS rem).2.2.2
            ++ [Ev.recvd slot, Ev.yielded]) ++ pre', ?_⟩
          rw [hpre']
          simp
      · rw [runIter_succ_stop flags fuel k aS rem st hf' hq] at h
        exfalso
        simp at h
        exact hnotsend h

lemma enqueueOne_queued (st : CoordState) (m : Msg) :
    (enqueueIndices st [m]).1.dataQueued
      = updateAt st.dataQueued st.indexPipeCounter (· + 1) := rfl

lemma applyOp_nonneg (st : CoordState) (op : PoolOp)
    (h : ∀ x ∈ st.dataQueued, 0 ≤ x) :
    ∀ x ∈ (applyOp st op).dataQueued, 0 ≤ x := by
  cases op with
  | enq m =>
    intro x hx
    rw [applyOp, enqueueOne_queued] at hx
    rcases mem_updateAt hx with h' | ⟨hj, hv⟩
    · exact h x h'
    · have h0 : 0 ≤ st.dataQueued.get ⟨st.indexPipeCounter, hj⟩ :=
        h _ (List.get_mem _ _ _)
      omega
  | recv =>
    intro x hx
    rw [applyOp] at hx
    rcases hr : receiveData st with _ | ⟨s, st'⟩
    · rw [hr] at hx
      exact h x hx
    · rw [hr] at hx
      obtain ⟨_, _, hQ, hnz⟩ := receiveData_spec st s st' hr
      rw [hQ] at hx
      rcases mem_updateAt hx with h' | ⟨hj, hv⟩
      · exact h x h'
      · have hg : st.dataQueued.getD s 0 = st.dataQueued.get ⟨s, hj⟩ := by
          rw [List.getD_eq_getElem _ _ hj]
          simp
        have h0 : 0 ≤ st.dataQueued.get ⟨s, hj⟩ := h _ (List.get_mem _ _ _)
        rw [hg] at hnz
        omega

lemma applyOps_nonneg (ops : List PoolOp) :
    ∀ st : CoordState, (∀ x ∈ st.dataQueued, 0 ≤ x) →
      ∀ x ∈ (applyOps st ops).dataQueued, 0 ≤ x := by
  induction ops with
  | nil => intro st h; simpa [applyOps] using h
  | cons op ops ih =>
    intro st h
    have hstep := applyOp_nonneg st op h
    have := ih (applyOp st op) hstep
    simpa [applyOps] using this

lemma ceil_div_eq (N B : Nat) (hB : 0 < B) :
    N / B + (if N % B ≠ 0 then 1 else 0) = (N + B - 1) / B := by
  have hdm := Nat.div_add_mod N B
  have hlt : N % B < B := Nat.mod_lt _ hB
  rcases Nat.eq_zero_or_pos (N % B) with h0 | hpos
  · rw [if_neg (by simpa using h0), Nat.add_zero]
    symm
    apply Nat.div_eq_of_lt_le
    · have h1 : N / B * B = B * (N / B) := Nat.mul_comm _ _
      omega
    · have h2 : (N / B + 1) * B = B * (N / B) + B := by ring
      omega
  · rw [if_pos (by omega)]
    symm
    apply Nat.div_eq_of_lt_le
    · have h1 : (N / B + 1) * B = B * (N / B) + B := by ring
      omega
    · have h2 : (N / B + 1 + 1) * B = B * (N / B) + B + B := by ring
      omega

/-! ### Claim theorems -/

/-- Claim C1 (code bug): the claim says the fetch operation returns the batch
mapping (a dict of per-field stacked arrays).  The code instead builds the
batch in a dict that never receives the values (all writes target each
sample's own dict) and ends with a bare `return`, so `DataLoader.__call__`
returns Python `None` for every dataset and index group. -/
theorem c1_fetch_returns_none :
    ∀ (dataset : List Sample) (indices : List Nat),
      dataLoaderCall dataset indices = none :=
  fun _ _ => rfl

/-- Claim C2 (code bug): after the pre-fill (whose sends are whole index
groups), the steady-state loop passes the single drawn group itself to
`_enqueue_indices`, which iterates over it, so the third sampled group
`[4, 5]` is dispatched as two separate bare-index messages rather than as one
index group, contradicting the one-group-in-per-batch-out discipline and the
worker protocol. -/
theorem c2_steady_state_dispatch_bug :
    sentMsgs (parallelIter 1 [[0, 1], [2, 3], [4, 5]] flagsOff 10)
      = [Msg.grp [0, 1], Msg.grp [2, 3], Msg.idx 4, Msg.idx 5] := by decide

/-- Claim C3 (code bug): with two workers, the shutdown loop (which pops from
the lists it is zipping over) sends the sentinel to and joins only worker 0,
never processes worker 1, and leaves one stale entry in the bookkeeping lists,
so shutdown is not complete and bookkeeping is not reset to empty. -/
theorem c3_shutdown_incomplete :
    shutdownProcesses [0, 1] = ([0], [0]) ∧
    1 ∉ (shutdownProcesses [0, 1]).1 ∧
    (shutdownProcesses [0, 1]).2 ≠ [] := by
  have h : shutdownProcesses [0, 1] = ([0], [0]) := by
    rw [shutdownProcesses, shutdownLoop]
    norm_num
    rw [shutdownLoop]
    norm_num
  refine ⟨h, ?_, ?_⟩
  · rw [h]; decide
  · rw [h]; decide

/-- Claim C4 (code bug): constructing an augmenter with an element-level
sampler stores the bare `BatchSampler` class object in `self._sampler`
(augmenter.py line 115), which is not a batch-sampler instance wrapping the
element sampler; the element sampler, group size and `drop_last` flag are all
discarded. -/
theorem c4_sampler_not_wrapped :
    resolveSampler (SamplerArg.elementInst ⟨5⟩) = Except.ok StoredSampler.classObj ∧
    ∀ b : BatchSamplerModel, StoredSampler.classObj ≠ StoredSampler.inst b :=
  ⟨rfl, fun _ h => StoredSampler.noConfusion h⟩

/-- Claim C5 counterexample: with two workers and the sampler groups
`[[5], [6]]`, the 0-th dispatched index group goes to worker slot 1, not to
slot `0 % 2 = 0` as the claim states, because `__iter__` performs one
discarded cursor advance before the first dispatch. -/
theorem c5_first_dispatch_not_slot_zero :
    (sendSlots (parallelIter 2 [[5], [6]] flagsOff 10)).getD 0 0 = 1 ∧
    (1 : Nat) ≠ 0 % 2 := by
  constructor
  · decide
  · decide

/-- Claim C5 (amended): dispatch is strictly cyclic but starts at slot 1: for
every k, the k-th dispatched message (counting from 0) of a parallel pass is
sent to worker slot `(k + 1) % num_processes`, regardless of the sampler's
groups, the abort-flag schedule or the fuel. -/
theorem c5_dispatch_slots (n : Nat) (groups : List (List Nat)) (flags : Nat → Bool)
    (fuel k : Nat) (hn : 0 < n)
    (hk : k < (sendSlots (parallelIter n groups flags fuel)).length) :
    (sendSlots (parallelIter n groups flags fuel)).getD k 0 = (k + 1) % n := by
  have h1n : 1 % n < n := Nat.mod_lt _ hn
  have hc1 : ((nextIndexPipe (initState n)).2).indexPipeCounter
      < ((nextIndexPipe (initState n)).2).numProcesses := h1n
  obtain ⟨hN, hI, hIlt, hL, hS⟩ :=
    enqueueIndices_slots ((groups.take (2 * n)).map Msg.grp)
      ((nextIndexPipe (initState n)).2) hc1
  have hrun := runIter_slots flags fuel 0 (decide (groups.length < 2 * n))
    (groups.drop (2 * n))
    (enqueueIndices ((nextIndexPipe (initState n)).2)
      ((groups.take (2 * n)).map Msg.grp)).1
    (by rw [hN]; exact hIlt)
  rw [hN, hI] at hrun
  have hAll : SlotsFrom n (1 % n) (sendSlots (parallelIter n groups flags fuel)) := by
    rw [show parallelIter n groups flags fuel
        = (enqueueIndices ((nextIndexPipe (initState n)).2)
            ((groups.take (2 * n)).map Msg.grp)).2
          ++ runIter flags fuel 0 (decide (groups.length < 2 * n))
              (groups.drop (2 * n))
              (enqueueIndices ((nextIndexPipe (initState n)).2)
                ((groups.take (2 * n)).map Msg.grp)).1 from rfl,
      sendSlots_append]
    refine slotsFrom_append h1n hS ?_
    rw [hL]
    exact hrun
  have := hAll k hk
  rw [this, Nat.mod_add_mod]
  congr 1
  omega

/-- Witness for the amended C5 theorem at a concrete pass. -/
theorem c5_dispatch_slots_witness :
    (sendSlots (parallelIter 2 [[5], [6]] flagsOff 10)).getD 0 0 = (0 + 1) % 2 :=
  c5_dispatch_slots 2 [[5], [6]] flagsOff 10 0 (by decide) (by decide)

/-- Claim C6 (confirmed): for every dataset size N > 0 and batch size B > 0,
`DataManager.n_batches` equals the ceiling of N/B when `drop_last` is unset
and the floor of N/B when it is set. -/
theorem c6_n_batches (N B : Nat) (hN : 0 < N) (hB : 0 < B) :
    nBatches N B false = some ((N + B - 1) / B) ∧
    nBatches N B true = some (N / B) := by
  constructor
  · rw [nBatches, if_pos hN, if_pos hB]
    congr 1
    rw [← ceil_div_eq N B hB]
    congr 1
    by_cases h : N % B = 0 <;> simp [h]
  · rw [nBatches, if_pos hN, if_pos hB]
    simp

/-- Witness for the C6 theorem at N = 5, B = 2. -/
theorem c6_n_batches_witness :
    nBatches 5 2 false = some ((5 + 2 - 1) / 2) ∧ nBatches 5 2 true = some (5 / 2) :=
  c6_n_batches 5 2 (by decide) (by decide)

/-- Claim C7 (confirmed): the coordinator reads the abort flag exactly once
per collection iteration (in any terminated pass the number of checks is the
number of yielded batches plus one), an iteration that observes the flag set
produces exactly the check followed by the pool-level raise and nothing else
(in particular no further or partial batch), and a raise can only appear
immediately after a check that observed the flag set. -/
theorem c7_abort_check_and_raise :
    (∀ (flags : Nat → Bool) (fuel k : Nat) (aS : Bool) (rem : List (List Nat))
        (st : CoordState), flags k = true →
        runIter flags (fuel + 1) k aS rem st = [Ev.checkAbort true, Ev.raised]) ∧
    (∀ (flags : Nat → Bool) (fuel k : Nat) (aS : Bool) (rem : List (List Nat))
        (st : CoordState), Terminated (runIter flags fuel k aS rem st) →
        countEvs isCheck (runIter flags fuel k aS rem st)
          = countEvs isYield (runIter flags fuel k aS rem st) + 1) ∧
    (∀ (flags : Nat → Bool) (fuel k : Nat) (aS : Bool) (rem : List (List Nat))
        (st : CoordState), Ev.raised ∈ runIter flags fuel k aS rem st →
        ∃ pre, runIter flags fuel k aS rem st = pre ++ [Ev.checkAbort true, Ev.raised]) :=
  ⟨fun flags fuel k aS rem st hf => runIter_succ_raise flags fuel k aS rem st hf,
   fun flags fuel k aS rem st ht => runIter_counts flags fuel k aS rem st ht,
   fun flags fuel k aS rem st hm => runIter_raised flags fuel k aS rem st hm⟩

/-- Witness for the C7 theorem at concrete passes. -/
theorem c7_abort_check_and_raise_witness :
    runIter flagsOn (0 + 1) 0 true [] (initState 1) = [Ev.checkAbort true, Ev.raised] ∧
    countEvs isCheck (runIter flagsOff 3 0 true [] (initState 1))
      = countEvs isYield (runIter flagsOff 3 0 true [] (initState 1)) + 1 ∧
    ∃ pre, runIter flagsOn 2 0 true [] (initState 1)
      = pre ++ [Ev.checkAbort true, Ev.raised] :=
  ⟨c7_abort_check_and_raise.1 flagsOn 0 0 true [] (initState 1) rfl,
   c7_abort_check_and_raise.2.1 flagsOff 3 0 true [] (initState 1)
     (Or.inr (by decide)),
   c7_abort_check_and_raise.2.2 flagsOn 2 0 true [] (initState 1) (by decide)⟩

/-- Claim C8 (confirmed): starting from a fresh pool, for every interleaving
of coordinator dispatch (increment via the dispatch cursor) and collect
(decrement of a scanned nonzero slot via the independent collection cursor)
operations, no slot's pending-batch counter ever becomes negative. -/
theorem c8_pending_counter_nonneg (n : Nat) (ops : List PoolOp) :
    ∀ x ∈ (applyOps (initState n) ops).dataQueued, 0 ≤ x :=
  applyOps_nonneg ops (initState n) (by
    intro x hx
    have hx0 : x = 0 := List.eq_of_mem_replicate (by simpa [initState] using hx)
    simp [hx0])

/-- Witness for the C8 theorem at one enqueue on a one-worker pool. -/
theorem c8_pending_counter_nonneg_witness :
    (1 : Int) ∈ (applyOps (initState 1) [PoolOp.enq (Msg.idx 0)]).dataQueued ∧
    (0 : Int) ≤ 1 :=
  ⟨by decide, c8_pending_counter_nonneg 1 [PoolOp.enq (Msg.idx 0)] 1 (by decide)⟩

/-- Claim C9 (confirmed): the first assignment of a process identity succeeds
and stores the value; every subsequent assignment returns the
`ProcessIdentityReuse` error while the stored identity stays unchanged. -/
theorem c9_process_id_set_once :
    (∀ v : Nat, setProcessId processIdInit v = (some v, none)) ∧
    (∀ v w : Nat, setProcessId (some v) w
      = (some v, some LoaderErr.processIdentityReuse)) :=
  ⟨fun _ => rfl, fun _ _ => rfl⟩

/-- Claim C10 (confirmed): reading the process-identity field before it has
ever been set returns 0 without failing, and after a successful set the getter
returns exactly the value that was set. -/
theorem c10_process_id_get_default_then_value :
    getProcessId processIdInit = 0 ∧
    ∀ v : Nat, (setProcessId processIdInit v).2 = none ∧
      getProcessId (setProcessId processIdInit v).1 = v :=
  ⟨rfl, fun _ => ⟨rfl, rfl⟩⟩
